import Mathlib

/-
Verification of the BounceShot physics core (src/game/physics.ts) against its
natural-language specification.  The embedding below translates the physics
module into Lean over the real numbers: TypeScript objects become structures,
the mutable ball state becomes explicit state passing, and the for-loops with
break become structural recursion over lists.
-/

namespace BounceShot

/-- The `Vec2` record of the game's types module (the module physics.ts
imports as `./types`; its code sits at the end of src/game/levels.ts). -/
structure Vec2 where
  x : ℝ
  y : ℝ

/-- MotionConfig axis of an oscillating bumper, the `axis: 'x' | 'y'` field. -/
inductive Axis where
  | x
  | y

/-- The `MotionConfig` record of the types module: periodic motion of a
bumper, `{axis, amplitude, speed, phase?}` with `phase` optional. -/
structure MotionConfig where
  axis : Axis
  amplitude : ℝ
  speed : ℝ
  phase : Option ℝ

/-- The `TriangleOrientation` union of the types module
(`'up' | 'down' | 'left' | 'right'`). -/
inductive TriangleOrientation where
  | up
  | down
  | left
  | right

/-- The `type` discriminant of the `Bumper` union
(`RectBumper | TriangleBumper`); the triangle variant carries the
`orientation` field that `TriangleBumper` adds over `BaseBumper`. -/
inductive BumperShape where
  | rect
  | triangle (orientation : TriangleOrientation)

/-- The `Bumper` union of the types module, flattened: the `BaseBumper`
fields (id, color, anchor position, width, height, optional static rotation
in degrees, optional periodic motion) plus the `type` discriminant, which
carries the triangle variant's orientation. -/
structure Bumper where
  id : String
  color : String
  position : Vec2
  width : ℝ
  height : ℝ
  rotation : Option ℝ
  motion : Option MotionConfig
  type : BumperShape

/-- The `TargetConfig` record of the types module. -/
structure TargetConfig where
  position : Vec2
  size : ℝ
  color : String

/-- The `LevelConfig` record of the types module; `bounceLimit` (a `number`
in the source) is the spec's positive integer bounce budget.  Only `bumpers`
is consumed by the physics core. -/
structure LevelConfig where
  id : String
  name : String
  backgroundColor : String
  bounceLimit : ℕ
  ballStart : Vec2
  target : TargetConfig
  bumpers : List Bumper

/-- The `ResolvedBumper` record of physics.ts: a time-evaluated world-space
polygon together with echoed display data. -/
structure ResolvedBumper where
  id : String
  color : String
  center : Vec2
  width : ℝ
  height : ℝ
  rotation : ℝ
  vertices : List Vec2
  type : BumperShape

/-- Collision event kind (`'wall' | 'bumper'`). -/
inductive CollisionKind where
  | wall
  | bumper

/-- The `CollisionEvent` record of physics.ts. -/
structure CollisionEvent where
  id : String
  kind : CollisionKind
  normal : Vec2
  point : Vec2

/-- The `BallState` record of physics.ts. -/
structure BallState where
  position : Vec2
  velocity : Vec2

/-- The `StepSettings` record of physics.ts. -/
structure StepSettings where
  ballRadius : ℝ
  worldWidth : ℝ
  worldHeight : ℝ
  damping : ℝ
  friction : ℝ
  maxSpeed : ℝ

/-- The internal `Edge` record of physics.ts (`from`/`to` renamed: keywords). -/
structure Edge where
  efrom : Vec2
  eto : Vec2
  normal : Vec2

/-- `toRadians` of physics.ts: degrees to radians. -/
noncomputable def toRadians (degrees : ℝ) : ℝ := degrees * Real.pi / 180

/-- `add` of physics.ts. -/
noncomputable def add (a b : Vec2) : Vec2 := ⟨a.x + b.x, a.y + b.y⟩

/-- `sub` of physics.ts. -/
noncomputable def sub (a b : Vec2) : Vec2 := ⟨a.x - b.x, a.y - b.y⟩

/-- `scale` of physics.ts. -/
noncomputable def scale (a : Vec2) (s : ℝ) : Vec2 := ⟨a.x * s, a.y * s⟩

/-- `dot` of physics.ts. -/
noncomputable def dot (a b : Vec2) : ℝ := a.x * b.x + a.y * b.y

/-- `length` of physics.ts: the Euclidean norm. -/
noncomputable def length (a : Vec2) : ℝ := Real.sqrt (a.x * a.x + a.y * a.y)

/-- `normalize` of physics.ts: zero vector maps to the zero vector. -/
noncomputable def normalize (a : Vec2) : Vec2 :=
  if length a = 0 then ⟨0, 0⟩ else ⟨a.x / length a, a.y / length a⟩

/-- `clamp` of physics.ts: `Math.max(min, Math.min(max, value))`. -/
noncomputable def clamp (value lo hi : ℝ) : ℝ := max lo (min hi value)

/-- `rotatePoint` of physics.ts: rotation about the origin. -/
noncomputable def rotatePoint (point : Vec2) (radians : ℝ) : Vec2 :=
  ⟨point.x * Real.cos radians - point.y * Real.sin radians,
   point.x * Real.sin radians + point.y * Real.cos radians⟩

/-- `applyMotion` of physics.ts: offset the anchor along the motion axis by
`amplitude * sin(time * speed + phase)`, `phase` defaulting to `0`. -/
noncomputable def applyMotion (position : Vec2) (bumper : Bumper) (time : ℝ) : Vec2 :=
  match bumper.motion with
  | none => position
  | some m =>
    let offset := m.amplitude * Real.sin (time * m.speed + m.phase.getD 0)
    match m.axis with
    | Axis.x => ⟨position.x + offset, position.y⟩
    | Axis.y => ⟨position.x, position.y + offset⟩

/-- `rectVertices` of physics.ts. -/
noncomputable def rectVertices (bumper : Bumper) : List Vec2 :=
  [⟨-(bumper.width / 2), -(bumper.height / 2)⟩,
   ⟨bumper.width / 2, -(bumper.height / 2)⟩,
   ⟨bumper.width / 2, bumper.height / 2⟩,
   ⟨-(bumper.width / 2), bumper.height / 2⟩]

/-- `triangleVertices` of physics.ts, dispatching on the orientation field of
the triangle variant. -/
noncomputable def triangleVertices (bumper : Bumper) (orientation : TriangleOrientation) : List Vec2 :=
  match orientation with
  | TriangleOrientation.up =>
    [⟨0, -(bumper.height / 2)⟩,
     ⟨bumper.width / 2, bumper.height / 2⟩,
     ⟨-(bumper.width / 2), bumper.height / 2⟩]
  | TriangleOrientation.down =>
    [⟨0, bumper.height / 2⟩,
     ⟨-(bumper.width / 2), -(bumper.height / 2)⟩,
     ⟨bumper.width / 2, -(bumper.height / 2)⟩]
  | TriangleOrientation.left =>
    [⟨-(bumper.width / 2), 0⟩,
     ⟨bumper.width / 2, -(bumper.height / 2)⟩,
     ⟨bumper.width / 2, bumper.height / 2⟩]
  | TriangleOrientation.right =>
    [⟨bumper.width / 2, 0⟩,
     ⟨-(bumper.width / 2), -(bumper.height / 2)⟩,
     ⟨-(bumper.width / 2), bumper.height / 2⟩]

/-- The `baseVerts` selection inside `resolveBumper`: rectangle corners or
orientation-specific triangle vertices. -/
noncomputable def baseVertices (bumper : Bumper) : List Vec2 :=
  match bumper.type with
  | BumperShape.rect => rectVertices bumper
  | BumperShape.triangle o => triangleVertices bumper o

/-- `buildEdges` of physics.ts: consecutive vertex pairs with wrap-around,
each with raw normal `(dy, -dx)` normalized. -/
noncomputable def buildEdges (vertices : List Vec2) : List Edge :=
  (vertices.zip (vertices.rotate 1)).map fun p =>
    let edgeDir := sub p.2 p.1
    { efrom := p.1, eto := p.2, normal := normalize ⟨edgeDir.y, -edgeDir.x⟩ }

/-- `resolveBumper` of physics.ts: local vertices, optional static rotation
(skipped when the rotation is `0`, mirroring JS truthiness), motion-resolved
center, then translation to world space. -/
noncomputable def resolveBumper (bumper : Bumper) (time : ℝ) : ResolvedBumper :=
  let rotation := bumper.rotation.getD 0
  let baseVerts := baseVertices bumper
  let rotated :=
    if rotation = 0 then baseVerts
    else baseVerts.map fun point => rotatePoint point (toRadians rotation)
  let center := applyMotion bumper.position bumper time
  let vertices := rotated.map fun point => add point center
  { id := bumper.id, color := bumper.color, center := center,
    width := bumper.width, height := bumper.height, rotation := rotation,
    vertices := vertices, type := bumper.type }

/-- `resolveBumpers` of physics.ts. -/
noncomputable def resolveBumpers (level : LevelConfig) (time : ℝ) : List ResolvedBumper :=
  level.bumpers.map fun bumper => resolveBumper bumper time

/-- `closestPointOnSegment` of physics.ts: clamped projection onto the finite
segment, with the squared-length denominator floored at `0.0001`. -/
noncomputable def closestPointOnSegment (point : Vec2) (edge : Edge) : Vec2 :=
  let seg := sub edge.eto edge.efrom
  let segLenSq := max (dot seg seg) (1 / 10000)
  let t := clamp (dot (sub point edge.efrom) seg / segLenSq) 0 1
  add edge.efrom (scale seg t)

/-- `reflectVelocity` of physics.ts: `v - 2 (v . n) n`. -/
noncomputable def reflectVelocity (velocity normal : Vec2) : Vec2 :=
  sub velocity (scale normal (2 * dot velocity normal))

/-- The `CollisionAccumulator` of physics.ts; the `Set<string>` of seen ids
is modelled by a list with membership testing. -/
structure CollisionAccumulator where
  events : List CollisionEvent
  ids : List String

/-- `appendCollision` of physics.ts: drop the event if its id was already
recorded, otherwise push it and record the id. -/
def appendCollision (accumulator : CollisionAccumulator) (event : CollisionEvent) :
    CollisionAccumulator :=
  if event.id ∈ accumulator.ids then accumulator
  else { events := accumulator.events ++ [event], ids := accumulator.ids ++ [event.id] }

/-- The x-axis half of `resolveWallCollisions` (lines 204-222 of physics.ts):
left wall, else right wall, each clamping the position and reflecting and
damping the x velocity component. -/
noncomputable def resolveWallX (state : BallState) (settings : StepSettings)
    (accumulator : CollisionAccumulator) : BallState × CollisionAccumulator :=
  if state.position.x - settings.ballRadius < 0 ∧ state.velocity.x < 0 then
    ({ position := ⟨settings.ballRadius, state.position.y⟩,
       velocity := ⟨|state.velocity.x| * settings.damping, state.velocity.y⟩ },
     appendCollision accumulator
       { id := "wall-left", kind := CollisionKind.wall, normal := ⟨1, 0⟩,
         point := ⟨0, state.position.y⟩ })
  else if state.position.x + settings.ballRadius > settings.worldWidth ∧
      state.velocity.x > 0 then
    ({ position := ⟨settings.worldWidth - settings.ballRadius, state.position.y⟩,
       velocity := ⟨-|state.velocity.x| * settings.damping, state.velocity.y⟩ },
     appendCollision accumulator
       { id := "wall-right", kind := CollisionKind.wall, normal := ⟨-1, 0⟩,
         point := ⟨settings.worldWidth, state.position.y⟩ })
  else (state, accumulator)

/-- The y-axis half of `resolveWallCollisions` (lines 224-242 of physics.ts):
top wall, else bottom wall.  It reads the state already corrected by the
x half, matching the aliasing of the mutable state in the source. -/
noncomputable def resolveWallY (state : BallState) (settings : StepSettings)
    (accumulator : CollisionAccumulator) : BallState × CollisionAccumulator :=
  if state.position.y - settings.ballRadius < 0 ∧ state.velocity.y < 0 then
    ({ position := ⟨state.position.x, settings.ballRadius⟩,
       velocity := ⟨state.velocity.x, |state.velocity.y| * settings.damping⟩ },
     appendCollision accumulator
       { id := "wall-top", kind := CollisionKind.wall, normal := ⟨0, 1⟩,
         point := ⟨state.position.x, 0⟩ })
  else if state.position.y + settings.ballRadius > settings.worldHeight ∧
      state.velocity.y > 0 then
    ({ position := ⟨state.position.x, settings.worldHeight - settings.ballRadius⟩,
       velocity := ⟨state.velocity.x, -|state.velocity.y| * settings.damping⟩ },
     appendCollision accumulator
       { id := "wall-bottom", kind := CollisionKind.wall, normal := ⟨0, -1⟩,
         point := ⟨state.position.x, settings.worldHeight⟩ })
  else (state, accumulator)

/-- `resolveWallCollisions` of physics.ts: the x half then the y half on the
corrected state. -/
noncomputable def resolveWallCollisions (state : BallState) (settings : StepSettings)
    (accumulator : CollisionAccumulator) : BallState × CollisionAccumulator :=
  let xRes := resolveWallX state settings accumulator
  resolveWallY xRes.1 settings xRes.2

/-- The edge loop of `resolveBumperCollision` (lines 256-280 of physics.ts):
scan edges in order, skip an edge whose closest point coincides with the ball
center, and respond to the first edge within the ball radius that the ball is
moving into (push out along the normal, reflect and damp the velocity),
returning the corrected state and the event. -/
noncomputable def resolveBumperEdges (bumperId : String) (edges : List Edge)
    (state : BallState) (settings : StepSettings) :
    Option (BallState × CollisionEvent) :=
  match edges with
  | [] => none
  | edge :: rest =>
    let nearest := closestPointOnSegment state.position edge
    let diff := sub state.position nearest
    let dist := length diff
    if dist = 0 then resolveBumperEdges bumperId rest state settings
    else
      let normal := normalize diff
      if dist < settings.ballRadius ∧ dot state.velocity normal < 0 then
        let penetration := settings.ballRadius - dist
        some ({ position := add state.position (scale normal penetration),
                velocity := scale (reflectVelocity state.velocity normal) settings.damping },
              { id := bumperId, kind := CollisionKind.bumper, normal := normal,
                point := nearest })
      else resolveBumperEdges bumperId rest state settings

/-- The corner fallback loop of `resolveBumperCollision` (lines 284-300 of
physics.ts): respond to the first vertex within the ball radius that the ball
is moving toward, the vertex-to-center direction acting as the normal. -/
noncomputable def resolveBumperCorners (bumperId : String) (vertices : List Vec2)
    (state : BallState) (settings : StepSettings) :
    Option (BallState × CollisionEvent) :=
  match vertices with
  | [] => none
  | vertex :: rest =>
    let diff := sub state.position vertex
    let dist := length diff
    if dist < settings.ballRadius ∧ dot state.velocity diff < 0 then
      let normal := normalize diff
      let penetration := settings.ballRadius - dist
      some ({ position := add state.position (scale normal penetration),
              velocity := scale (reflectVelocity state.velocity normal) settings.damping },
            { id := bumperId, kind := CollisionKind.bumper, normal := normal,
              point := vertex })
    else resolveBumperCorners bumperId rest state settings

/-- `resolveBumperCollision` of physics.ts: the edge loop, then the corner
loop only when no edge collided, the matching response folded into the
accumulator. -/
noncomputable def resolveBumperCollision (bumper : ResolvedBumper) (state : BallState)
    (accumulator : CollisionAccumulator) (settings : StepSettings) :
    BallState × CollisionAccumulator :=
  let edges := buildEdges bumper.vertices
  match resolveBumperEdges bumper.id edges state settings with
  | some res => (res.1, appendCollision accumulator res.2)
  | none =>
    match resolveBumperCorners bumper.id bumper.vertices state settings with
    | some res => (res.1, appendCollision accumulator res.2)
    | none => (state, accumulator)

/-- `stepBall` of physics.ts: integrate position, apply the friction factor
`1 - friction * dt`, cap the speed at `maxSpeed`, then resolve wall and
bumper collisions in obstacle list order. -/
noncomputable def stepBall (state : BallState) (bumpers : List ResolvedBumper)
    (dt : ℝ) (settings : StepSettings) : BallState × List CollisionEvent :=
  let moved : BallState :=
    { position := add state.position (scale state.velocity dt),
      velocity := state.velocity }
  let fricted : BallState :=
    { moved with velocity := scale moved.velocity (1 - settings.friction * dt) }
  let speed := length fricted.velocity
  let capped : BallState :=
    if speed > settings.maxSpeed then
      { fricted with velocity := scale fricted.velocity (settings.maxSpeed / speed) }
    else fricted
  let start := resolveWallCollisions capped settings { events := [], ids := [] }
  let final := bumpers.foldl
    (fun acc bumper => resolveBumperCollision bumper acc.1 acc.2 settings) start
  (final.1, final.2.events)

/-- The loop body of `simulateTrajectory` (lines 357-369 of physics.ts),
recursing on the remaining step budget: step, push the position, advance
time, accumulate the step's collision count, and break once the accumulated
count reaches `maxCollisions`. -/
noncomputable def simulateTrajectoryAux (level : LevelConfig) (dt : ℝ)
    (settings : StepSettings) (maxCollisions : ℕ) :
    ℕ → BallState → ℝ → ℕ → List Vec2
  | 0, _, _, _ => []
  | n + 1, state, time, collisions =>
    let bumpers := resolveBumpers level time
    let result := stepBall state bumpers dt settings
    let newCollisions :=
      if result.2.length > 0 then collisions + result.2.length else collisions
    if newCollisions ≥ maxCollisions then [result.1.position]
    else result.1.position ::
      simulateTrajectoryAux level dt settings maxCollisions n result.1 (time + dt)
        newCollisions

/-- `simulateTrajectory` of physics.ts: run the integrator for at most
`steps` fixed-`dt` ticks from a copy of the start state, re-resolving the
level geometry at the advancing time, stopping early on the collision cap. -/
noncomputable def simulateTrajectory (start : BallState) (level : LevelConfig)
    (initialTime : ℝ) (dt : ℝ) (steps : ℕ) (maxCollisions : ℕ)
    (settings : StepSettings) : List Vec2 :=
  simulateTrajectoryAux level dt settings maxCollisions steps start initialTime 0

/-- Driving `stepBall` with an empty obstacle list through a list of
timestep values, returning the final state (the closed-arena scenario of the
spec's wall-containment property). -/
noncomputable def iterateSteps (settings : StepSettings) :
    BallState → List ℝ → BallState
  | state, [] => state
  | state, dt :: rest => iterateSteps settings (stepBall state [] dt settings).1 rest

/-! ### Component lemmas for the vector operations -/

@[simp] theorem add_x (a b : Vec2) : (add a b).x = a.x + b.x := rfl

@[simp] theorem add_y (a b : Vec2) : (add a b).y = a.y + b.y := rfl

@[simp] theorem sub_x (a b : Vec2) : (sub a b).x = a.x - b.x := rfl

@[simp] theorem sub_y (a b : Vec2) : (sub a b).y = a.y - b.y := rfl

@[simp] theorem scale_x (a : Vec2) (s : ℝ) : (scale a s).x = a.x * s := rfl

@[simp] theorem scale_y (a : Vec2) (s : ℝ) : (scale a s).y = a.y * s := rfl

theorem dot_def (a b : Vec2) : dot a b = a.x * b.x + a.y * b.y := rfl

theorem vec2Ext (a b : Vec2) (hx : a.x = b.x) (hy : a.y = b.y) : a = b := by
  cases a
  cases b
  cases hx
  cases hy
  rfl

/-! ### Helper lemmas about the vector operations -/

theorem length_def (a : Vec2) : length a = Real.sqrt (a.x ^ 2 + a.y ^ 2) := by
  unfold length
  ring_nf

theorem length_nonneg (a : Vec2) : 0 ≤ length a := Real.sqrt_nonneg _

theorem length_eq_zero_iff (a : Vec2) : length a = 0 ↔ a.x = 0 ∧ a.y = 0 := by
  rw [length_def, Real.sqrt_eq_zero']
  constructor
  · intro h
    constructor <;> nlinarith [sq_nonneg a.x, sq_nonneg a.y]
  · rintro ⟨hx, hy⟩
    rw [hx, hy]
    norm_num

theorem length_sq (a : Vec2) : length a ^ 2 = a.x * a.x + a.y * a.y := by
  rw [length_def, Real.sq_sqrt (by positivity)]
  ring

theorem length_scale (a : Vec2) (s : ℝ) : length (scale a s) = |s| * length a := by
  unfold length scale
  rw [show a.x * s * (a.x * s) + a.y * s * (a.y * s) =
        s ^ 2 * (a.x * a.x + a.y * a.y) by ring,
      Real.sqrt_mul (sq_nonneg s), Real.sqrt_sq_eq_abs]

theorem length_le_length (a b : Vec2)
    (h : a.x * a.x + a.y * a.y ≤ b.x * b.x + b.y * b.y) : length a ≤ length b :=
  Real.sqrt_le_sqrt h

theorem scale_one (v : Vec2) : scale v 1 = v := by
  cases v
  simp [scale]

theorem scale_scale (v : Vec2) (a b : ℝ) : scale (scale v a) b = scale v (a * b) := by
  cases v
  simp [scale, mul_assoc]

theorem normalize_unit (a : Vec2) (h : length a ≠ 0) :
    dot (normalize a) (normalize a) = 1 := by
  unfold normalize
  rw [if_neg h]
  show a.x / length a * (a.x / length a) + a.y / length a * (a.y / length a) = 1
  have hsq : length a ^ 2 = a.x * a.x + a.y * a.y := length_sq a
  field_simp
  nlinarith [hsq]

theorem reflect_length (v n : Vec2) (hn : dot n n = 1) :
    length (reflectVelocity v n) = length v := by
  have hn' : n.x * n.x + n.y * n.y = 1 := hn
  unfold length reflectVelocity
  simp only [sub_x, sub_y, scale_x, scale_y, dot_def]
  congr 1
  linear_combination (4 * (v.x * n.x + v.y * n.y) ^ 2) * hn'

/-- The speed cap in `stepBall`: rescaling to `maxSpeed / speed` when the
speed exceeds the cap leaves the speed at most the cap. -/
theorem capped_length_le (v : Vec2) (M : ℝ) (hM : 0 < M) :
    length (if length v > M then scale v (M / length v) else v) ≤ M := by
  split_ifs with h
  · have hv : 0 < length v := lt_trans hM h
    rw [length_scale, abs_of_pos (div_pos hM hv), div_mul_cancel₀ _ (ne_of_gt hv)]
  · exact not_lt.mp h

/-- The speed cap rescales the velocity by a positive factor. -/
theorem cap_factor (v : Vec2) (M : ℝ) (hM : 0 < M) :
    ∃ k : ℝ, 0 < k ∧ (if length v > M then scale v (M / length v) else v) = scale v k := by
  split_ifs with h
  · exact ⟨M / length v, div_pos hM (lt_trans hM h), rfl⟩
  · exact ⟨1, one_pos, (scale_one v).symm⟩

/-! ### Collision responses never increase the speed -/

theorem damp_sq_le (c d : ℝ) (hd0 : 0 ≤ d) (hd1 : d ≤ 1) :
    |c| * d * (|c| * d) ≤ c * c := by
  have hdd : 0 ≤ 1 - d * d := by nlinarith
  have h1 : |c| * d * (|c| * d) = c * c * (d * d) := by
    rw [show |c| * d * (|c| * d) = |c| * |c| * (d * d) from by ring, abs_mul_abs_self]
  nlinarith [mul_nonneg (mul_self_nonneg c) hdd]

theorem resolveWallX_speed_le (s : BallState) (cfg : StepSettings)
    (acc : CollisionAccumulator) (hd0 : 0 ≤ cfg.damping) (hd1 : cfg.damping ≤ 1) :
    length (resolveWallX s cfg acc).1.velocity ≤ length s.velocity := by
  unfold resolveWallX
  split_ifs with h1 h2
  · apply length_le_length
    dsimp only
    linarith [damp_sq_le s.velocity.x cfg.damping hd0 hd1]
  · apply length_le_length
    dsimp only
    linarith [damp_sq_le s.velocity.x cfg.damping hd0 hd1]
  · exact le_refl _

theorem resolveWallY_speed_le (s : BallState) (cfg : StepSettings)
    (acc : CollisionAccumulator) (hd0 : 0 ≤ cfg.damping) (hd1 : cfg.damping ≤ 1) :
    length (resolveWallY s cfg acc).1.velocity ≤ length s.velocity := by
  unfold resolveWallY
  split_ifs with h1 h2
  · apply length_le_length
    dsimp only
    linarith [damp_sq_le s.velocity.y cfg.damping hd0 hd1]
  · apply length_le_length
    dsimp only
    linarith [damp_sq_le s.velocity.y cfg.damping hd0 hd1]
  · exact le_refl _

theorem resolveBumperEdges_speed_le (bumperId : String) (edges : List Edge)
    (state : BallState) (cfg : StepSettings) (res : BallState × CollisionEvent)
    (hd0 : 0 ≤ cfg.damping) (hd1 : cfg.damping ≤ 1)
    (h : resolveBumperEdges bumperId edges state cfg = some res) :
    length res.1.velocity ≤ length state.velocity := by
  induction edges with
  | nil => simp [resolveBumperEdges] at h
  | cons e rest ih =>
    simp only [resolveBumperEdges] at h
    split_ifs at h with h0 hc
    · exact ih h
    · have hres := Option.some.inj h
      subst hres
      dsimp only
      rw [length_scale, reflect_length _ _ (normalize_unit _ h0),
        abs_of_nonneg hd0]
      exact mul_le_of_le_one_left (length_nonneg _) hd1
    · exact ih h

theorem resolveBumperCorners_speed_le (bumperId : String) (vertices : List Vec2)
    (state : BallState) (cfg : StepSettings) (res : BallState × CollisionEvent)
    (hd0 : 0 ≤ cfg.damping) (hd1 : cfg.damping ≤ 1)
    (h : resolveBumperCorners bumperId vertices state cfg = some res) :
    length res.1.velocity ≤ length state.velocity := by
  induction vertices with
  | nil => simp [resolveBumperCorners] at h
  | cons v rest ih =>
    simp only [resolveBumperCorners] at h
    split_ifs at h with hc
    · have hres := Option.some.inj h
      subst hres
      dsimp only
      have hne : length (sub state.position v) ≠ 0 := by
        intro h0
        obtain ⟨hx, hy⟩ := (length_eq_zero_iff _).mp h0
        have : dot state.velocity (sub state.position v) = 0 := by
          rw [dot_def, hx, hy]
          ring
        linarith [hc.2, this.ge.trans_eq this]
      rw [length_scale, reflect_length _ _ (normalize_unit _ hne),
        abs_of_nonneg hd0]
      exact mul_le_of_le_one_left (length_nonneg _) hd1
    · exact ih h

theorem resolveBumperCollision_speed_le (b : ResolvedBumper) (s : BallState)
    (acc : CollisionAccumulator) (cfg : StepSettings)
    (hd0 : 0 ≤ cfg.damping) (hd1 : cfg.damping ≤ 1) :
    length (resolveBumperCollision b s acc cfg).1.velocity ≤ length s.velocity := by
  unfold resolveBumperCollision
  cases he : resolveBumperEdges b.id (buildEdges b.vertices) s cfg with
  | some res =>
    simp only [he]
    exact resolveBumperEdges_speed_le _ _ _ _ _ hd0 hd1 he
  | none =>
    simp only [he]
    cases hcor : resolveBumperCorners b.id b.vertices s cfg with
    | some res =>
      simp only [hcor]
      exact resolveBumperCorners_speed_le _ _ _ _ _ hd0 hd1 hcor
    | none =>
      simp only [hcor]
      exact le_refl _

theorem foldl_bumpers_speed_le (bumpers : List ResolvedBumper)
    (p : BallState × CollisionAccumulator) (cfg : StepSettings) (M : ℝ)
    (hd0 : 0 ≤ cfg.damping) (hd1 : cfg.damping ≤ 1)
    (h : length p.1.velocity ≤ M) :
    length ((bumpers.foldl
      (fun acc bumper => resolveBumperCollision bumper acc.1 acc.2 cfg) p).1.velocity) ≤ M := by
  induction bumpers generalizing p with
  | nil => exact h
  | cons b rest ih =>
    rw [List.foldl_cons]
    exact ih _ ((resolveBumperCollision_speed_le b p.1 p.2 cfg hd0 hd1).trans h)

/-! ### Wall clamping keeps the ball inside the arena band -/

theorem resolveWallX_bounds (s : BallState) (cfg : StepSettings)
    (acc : CollisionAccumulator)
    (h2r : cfg.ballRadius ≤ cfg.worldWidth - cfg.ballRadius)
    (hlow : s.position.x < cfg.ballRadius → s.velocity.x < 0)
    (hhigh : cfg.worldWidth - cfg.ballRadius < s.position.x → 0 < s.velocity.x) :
    cfg.ballRadius ≤ (resolveWallX s cfg acc).1.position.x ∧
    (resolveWallX s cfg acc).1.position.x ≤ cfg.worldWidth - cfg.ballRadius ∧
    (resolveWallX s cfg acc).1.position.y = s.position.y ∧
    (resolveWallX s cfg acc).1.velocity.y = s.velocity.y := by
  unfold resolveWallX
  split_ifs with h1 h2
  · exact ⟨le_refl _, h2r, rfl, rfl⟩
  · exact ⟨h2r, le_refl _, rfl, rfl⟩
  · push_neg at h1 h2
    refine ⟨?_, ?_, rfl, rfl⟩
    · by_contra hc
      push_neg at hc
      have hv := hlow hc
      have := h1 (by linarith)
      linarith
    · by_contra hc
      push_neg at hc
      have hv := hhigh hc
      have := h2 (by linarith)
      linarith

theorem resolveWallY_bounds (s : BallState) (cfg : StepSettings)
    (acc : CollisionAccumulator)
    (h2r : cfg.ballRadius ≤ cfg.worldHeight - cfg.ballRadius)
    (hlow : s.position.y < cfg.ballRadius → s.velocity.y < 0)
    (hhigh : cfg.worldHeight - cfg.ballRadius < s.position.y → 0 < s.velocity.y) :
    cfg.ballRadius ≤ (resolveWallY s cfg acc).1.position.y ∧
    (resolveWallY s cfg acc).1.position.y ≤ cfg.worldHeight - cfg.ballRadius ∧
    (resolveWallY s cfg acc).1.position.x = s.position.x := by
  unfold resolveWallY
  split_ifs with h1 h2
  · exact ⟨le_refl _, h2r, rfl⟩
  · exact ⟨h2r, le_refl _, rfl⟩
  · push_neg at h1 h2
    refine ⟨?_, ?_, rfl⟩
    · by_contra hc
      push_neg at hc
      have hv := hlow hc
      have := h1 (by linarith)
      linarith
    · by_contra hc
      push_neg at hc
      have hv := hhigh hc
      have := h2 (by linarith)
      linarith

/-- Wall resolution keeps the center inside the band whenever any outward
position excursion comes with inward-pointing velocity. -/
theorem resolveWallCollisions_bounds (c : BallState) (cfg : StepSettings)
    (acc : CollisionAccumulator)
    (h2rx : cfg.ballRadius ≤ cfg.worldWidth - cfg.ballRadius)
    (h2ry : cfg.ballRadius ≤ cfg.worldHeight - cfg.ballRadius)
    (hlowx : c.position.x < cfg.ballRadius → c.velocity.x < 0)
    (hhighx : cfg.worldWidth - cfg.ballRadius < c.position.x → 0 < c.velocity.x)
    (hlowy : c.position.y < cfg.ballRadius → c.velocity.y < 0)
    (hhighy : cfg.worldHeight - cfg.ballRadius < c.position.y → 0 < c.velocity.y) :
    cfg.ballRadius ≤ (resolveWallCollisions c cfg acc).1.position.x ∧
    (resolveWallCollisions c cfg acc).1.position.x ≤ cfg.worldWidth - cfg.ballRadius ∧
    cfg.ballRadius ≤ (resolveWallCollisions c cfg acc).1.position.y ∧
    (resolveWallCollisions c cfg acc).1.position.y ≤ cfg.worldHeight - cfg.ballRadius := by
  unfold resolveWallCollisions
  dsimp only
  obtain ⟨hx1, hx2, hpy, hvy⟩ := resolveWallX_bounds c cfg acc h2rx hlowx hhighx
  obtain ⟨hy1, hy2, hpx⟩ :=
    resolveWallY_bounds (resolveWallX c cfg acc).1 cfg (resolveWallX c cfg acc).2 h2ry
      (by rw [hpy, hvy]; exact hlowy) (by rw [hpy, hvy]; exact hhighy)
  rw [hpx]
  exact ⟨hx1, hx2, hy1, hy2⟩

/-- With no obstacles `stepBall` is integration, friction, speed cap and
wall resolution; the speed cap's branch pushed into the velocity field. -/
theorem stepBall_noBumpers_state (state : BallState) (dt : ℝ) (cfg : StepSettings) :
    (stepBall state [] dt cfg).1 =
      (resolveWallCollisions
        { position := add state.position (scale state.velocity dt),
          velocity :=
            if length (scale state.velocity (1 - cfg.friction * dt)) > cfg.maxSpeed then
              scale (scale state.velocity (1 - cfg.friction * dt))
                (cfg.maxSpeed / length (scale state.velocity (1 - cfg.friction * dt)))
            else scale state.velocity (1 - cfg.friction * dt) } cfg
        { events := [], ids := [] }).1 := by
  unfold stepBall
  dsimp only
  rw [List.foldl_nil]
  split_ifs <;> rfl

/-- A single no-obstacle step keeps the center inside the band, provided the
friction multiplier stays positive (`friction * dt < 1`) and the speed cap is
positive, so that the velocity the wall checks see keeps the sign of the
input velocity. -/
theorem stepBall_noBumpers_inBounds (state : BallState) (dt : ℝ) (cfg : StepSettings)
    (hfr : cfg.friction * dt < 1) (hM : 0 < cfg.maxSpeed) (hdt : 0 ≤ dt)
    (hx1 : cfg.ballRadius ≤ state.position.x)
    (hx2 : state.position.x ≤ cfg.worldWidth - cfg.ballRadius)
    (hy1 : cfg.ballRadius ≤ state.position.y)
    (hy2 : state.position.y ≤ cfg.worldHeight - cfg.ballRadius) :
    cfg.ballRadius ≤ (stepBall state [] dt cfg).1.position.x ∧
    (stepBall state [] dt cfg).1.position.x ≤ cfg.worldWidth - cfg.ballRadius ∧
    cfg.ballRadius ≤ (stepBall state [] dt cfg).1.position.y ∧
    (stepBall state [] dt cfg).1.position.y ≤ cfg.worldHeight - cfg.ballRadius := by
  have hk1 : (0 : ℝ) < 1 - cfg.friction * dt := by linarith
  obtain ⟨k2, hk2, hcap⟩ :=
    cap_factor (scale state.velocity (1 - cfg.friction * dt)) cfg.maxSpeed hM
  have hkk : 0 < (1 - cfg.friction * dt) * k2 := mul_pos hk1 hk2
  simp only [stepBall_noBumpers_state]
  apply resolveWallCollisions_bounds
  · linarith
  · linarith
  · dsimp only
    rw [hcap, scale_scale]
    simp only [add_x, scale_x]
    intro hc
    have hvx : state.velocity.x < 0 := by
      by_contra h
      push_neg at h
      have := mul_nonneg h hdt
      linarith
    exact mul_neg_of_neg_of_pos hvx hkk
  · dsimp only
    rw [hcap, scale_scale]
    simp only [add_x, scale_x]
    intro hc
    have hvx : 0 < state.velocity.x := by
      by_contra h
      push_neg at h
      have := mul_nonpos_of_nonpos_of_nonneg h hdt
      linarith
    exact mul_pos hvx hkk
  · dsimp only
    rw [hcap, scale_scale]
    simp only [add_y, scale_y]
    intro hc
    have hvy : state.velocity.y < 0 := by
      by_contra h
      push_neg at h
      have := mul_nonneg h hdt
      linarith
    exact mul_neg_of_neg_of_pos hvy hkk
  · dsimp only
    rw [hcap, scale_scale]
    simp only [add_y, scale_y]
    intro hc
    have hvy : 0 < state.velocity.y := by
      by_contra h
      push_neg at h
      have := mul_nonpos_of_nonpos_of_nonneg h hdt
      linarith
    exact mul_pos hvy hkk

/-! ### Shared concrete fixtures -/

/-- The game's physics settings (`getPhysicsSettings` in the app layer):
radius 14, world 360x640, damping 0.88, friction 0.18, max speed 900. -/
noncomputable def stdSettings : StepSettings :=
  { ballRadius := 14, worldWidth := 360, worldHeight := 640,
    damping := 0.88, friction := 0.18, maxSpeed := 900 }

/-- A level with no obstacles, for closed-arena scenarios. -/
noncomputable def emptyLevel : LevelConfig :=
  { id := "level-0", name := "Level 0", backgroundColor := "#000000",
    bounceLimit := 5, ballStart := ⟨180, 320⟩,
    target := { position := ⟨300, 100⟩, size := 32, color := "#F9F7F3" },
    bumpers := [] }

/-! ### C1: trajectory preview with a zero collision cap -/

/-- C1 (counterexample): the claim says that with `maxCollisions = 0` and
`steps = 2` the loop never breaks on the collision cap and the returned list
has length 2.  On the code the check `collisions >= maxCollisions` runs after
the first step as `0 >= 0`, which is true, so the loop breaks at once: at a
collision-free concrete input the returned list has length 1, not 2. -/
theorem simulateTrajectory_capZero_cex :
    (simulateTrajectory ⟨⟨180, 320⟩, ⟨0, 0⟩⟩ emptyLevel 0 (1 / 60) 2 0
        stdSettings).length = 1 ∧
    (simulateTrajectory ⟨⟨180, 320⟩, ⟨0, 0⟩⟩ emptyLevel 0 (1 / 60) 2 0
        stdSettings).length ≠ 2 := by
  constructor
  · simp [simulateTrajectory, simulateTrajectoryAux]
  · simp [simulateTrajectory, simulateTrajectoryAux]

/-- C1 (amended): with `maxCollisions = 0` and `steps ≥ 1`, the accumulated
collision count (whether or not any collision occurred) satisfies
`collisions >= 0` after the very first step, so the loop always breaks there
and the returned point list has length exactly 1, never the full budget. -/
theorem simulateTrajectory_capZero_length_one (start : BallState)
    (level : LevelConfig) (initialTime dt : ℝ) (settings : StepSettings)
    (steps : ℕ) (h : 1 ≤ steps) :
    (simulateTrajectory start level initialTime dt steps 0 settings).length = 1 := by
  obtain ⟨n, rfl⟩ : ∃ n, steps = n + 1 := ⟨steps - 1, by omega⟩
  simp [simulateTrajectory, simulateTrajectoryAux]

/-- C1 (witness): the amended theorem applied at a concrete input with a
three-step budget. -/
theorem simulateTrajectory_capZero_length_one_w :
    (simulateTrajectory ⟨⟨100, 100⟩, ⟨5, 0⟩⟩ emptyLevel 0 (1 / 60) 3 0
        stdSettings).length = 1 :=
  simulateTrajectory_capZero_length_one ⟨⟨100, 100⟩, ⟨5, 0⟩⟩ emptyLevel 0
    (1 / 60) stdSettings 3 (by norm_num)

/-! ### C2: concrete scenario 1 -/

/-- C2: a ball at `(0,0)` with velocity `(-100,0)`, one step with `dt=1/60`
under radius 14, world 360x640, damping 0.88, friction 0.18 and any speed cap
of at least 100: the returned `position.x` is exactly 14 (clamped to the
radius) and the returned `velocity.x` is positive with magnitude exactly
`100*(1-0.18/60)*0.88`. -/
theorem stepBall_scenario1 (M : ℝ) (hM : 100 ≤ M) :
    (stepBall ⟨⟨0, 0⟩, ⟨-100, 0⟩⟩ [] (1 / 60)
        ⟨14, 360, 640, 0.88, 0.18, M⟩).1.position.x = 14 ∧
    (stepBall ⟨⟨0, 0⟩, ⟨-100, 0⟩⟩ [] (1 / 60)
        ⟨14, 360, 640, 0.88, 0.18, M⟩).1.velocity.x =
      100 * (1 - 0.18 / 60) * 0.88 ∧
    0 < (stepBall ⟨⟨0, 0⟩, ⟨-100, 0⟩⟩ [] (1 / 60)
        ⟨14, 360, 640, 0.88, 0.18, M⟩).1.velocity.x := by
  have hv : scale (⟨-100, 0⟩ : Vec2) (1 - 0.18 * (1 / 60)) = ⟨-997 / 10, 0⟩ := by
    simp only [scale, Vec2.mk.injEq]
    norm_num
  have hlen : length (⟨-997 / 10, 0⟩ : Vec2) = 997 / 10 := by
    unfold length
    rw [show (-997 / 10 : ℝ) * (-997 / 10) + 0 * 0 = (997 / 10) ^ 2 by norm_num,
      Real.sqrt_sq (by norm_num)]
  have hcap : ¬ ((997 / 10 : ℝ) > M) := by
    push_neg
    linarith
  have hp : add (⟨0, 0⟩ : Vec2) (scale (⟨-100, 0⟩ : Vec2) (1 / 60)) = ⟨-5 / 3, 0⟩ := by
    simp only [add, scale, Vec2.mk.injEq]
    norm_num
  have key : (stepBall ⟨⟨0, 0⟩, ⟨-100, 0⟩⟩ [] (1 / 60)
      ⟨14, 360, 640, 0.88, 0.18, M⟩).1 = ⟨⟨14, 0⟩, ⟨10967 / 125, 0⟩⟩ := by
    rw [stepBall_noBumpers_state]
    dsimp only
    rw [hv, hlen, hp, if_neg hcap]
    unfold resolveWallCollisions resolveWallX resolveWallY
    dsimp only
    rw [if_pos (by constructor <;> norm_num : (-5 / 3 : ℝ) - 14 < 0 ∧ (-997 / 10 : ℝ) < 0)]
    dsimp only
    rw [if_neg (by norm_num : ¬ ((0 : ℝ) - 14 < 0 ∧ (0 : ℝ) < 0))]
    rw [if_neg (by norm_num : ¬ ((0 : ℝ) + 14 > 640 ∧ (0 : ℝ) > 0))]
    simp only [BallState.mk.injEq, Vec2.mk.injEq]
    rw [abs_of_neg (show (-997 / 10 : ℝ) < 0 by norm_num)]
    norm_num
  rw [key]
  refine ⟨rfl, ?_, by norm_num⟩
  norm_num

/-- C2 (witness): the scenario-1 theorem at the game's speed cap of 900. -/
theorem stepBall_scenario1_w :
    (stepBall ⟨⟨0, 0⟩, ⟨-100, 0⟩⟩ [] (1 / 60)
        ⟨14, 360, 640, 0.88, 0.18, 900⟩).1.position.x = 14 ∧
    (stepBall ⟨⟨0, 0⟩, ⟨-100, 0⟩⟩ [] (1 / 60)
        ⟨14, 360, 640, 0.88, 0.18, 900⟩).1.velocity.x =
      100 * (1 - 0.18 / 60) * 0.88 ∧
    0 < (stepBall ⟨⟨0, 0⟩, ⟨-100, 0⟩⟩ [] (1 / 60)
        ⟨14, 360, 640, 0.88, 0.18, 900⟩).1.velocity.x :=
  stepBall_scenario1 900 (by norm_num)

/-! ### C3: wall containment -/

/-- Settings with `friction * dt > 1` for `dt = 1`, exhibiting the friction
sign flip that defeats the wall clamp. -/
noncomputable def cexSettings : StepSettings :=
  { ballRadius := 14, worldWidth := 360, worldHeight := 640,
    damping := 0.88, friction := 120, maxSpeed := 1000000 }

/-- C3 (counterexample): the claim quantifies over every `dt > 0` and every
settings record.  With `friction = 120` and `dt = 1` the friction multiplier
`1 - friction*dt = -119` flips the velocity sign: a ball starting in bounds
at `(100, 100)` with velocity `(-100, 0)` is integrated to `x = 0 < 14`, but
the left-wall clamp requires inward (negative) velocity while the flipped
velocity is `11900 > 0`, so no clamp fires and the returned center has
`x = 0`, outside `[ballRadius, worldWidth - ballRadius]`. -/
theorem wall_containment_cex :
    (stepBall ⟨⟨100, 100⟩, ⟨-100, 0⟩⟩ [] 1 cexSettings).1.position.x = 0 ∧
    ¬ cexSettings.ballRadius ≤
        (stepBall ⟨⟨100, 100⟩, ⟨-100, 0⟩⟩ [] 1 cexSettings).1.position.x := by
  have hv : scale (⟨-100, 0⟩ : Vec2) (1 - cexSettings.friction * 1) = ⟨11900, 0⟩ := by
    simp only [scale, cexSettings, Vec2.mk.injEq]
    norm_num
  have hlen : length (⟨11900, 0⟩ : Vec2) = 11900 := by
    unfold length
    rw [show (11900 : ℝ) * 11900 + 0 * 0 = 11900 ^ 2 by norm_num,
      Real.sqrt_sq (by norm_num)]
  have hp : add (⟨100, 100⟩ : Vec2) (scale (⟨-100, 0⟩ : Vec2) 1) = ⟨0, 100⟩ := by
    simp only [add, scale, Vec2.mk.injEq]
    norm_num
  have key : (stepBall ⟨⟨100, 100⟩, ⟨-100, 0⟩⟩ [] 1 cexSettings).1.position.x = 0 := by
    rw [stepBall_noBumpers_state]
    dsimp only
    rw [hv, hlen, hp, if_neg (by norm_num [cexSettings])]
    unfold resolveWallCollisions resolveWallX resolveWallY
    rw [if_neg (by norm_num [cexSettings])]
    rw [if_neg (by norm_num [cexSettings])]
    dsimp only
    rw [if_neg (by norm_num [cexSettings])]
    rw [if_neg (by norm_num [cexSettings])]
  refine ⟨key, ?_⟩
  rw [key]
  norm_num [cexSettings]

/-- C3 (amended): with an empty obstacle list, a start inside the band and a
sequence of steps whose `dt` additionally keep the friction multiplier
positive (`friction * dt < 1`), and a positive speed cap, the center stays
within `[ballRadius, worldWidth - ballRadius] x [ballRadius, worldHeight -
ballRadius]` after each step (stated for every step sequence, hence for every
prefix). -/
theorem iterateSteps_wall_containment (cfg : StepSettings) (state : BallState)
    (dts : List ℝ) (hM : 0 < cfg.maxSpeed)
    (hdts : ∀ dt ∈ dts, 0 < dt ∧ cfg.friction * dt < 1)
    (hx1 : cfg.ballRadius ≤ state.position.x)
    (hx2 : state.position.x ≤ cfg.worldWidth - cfg.ballRadius)
    (hy1 : cfg.ballRadius ≤ state.position.y)
    (hy2 : state.position.y ≤ cfg.worldHeight - cfg.ballRadius) :
    cfg.ballRadius ≤ (iterateSteps cfg state dts).position.x ∧
    (iterateSteps cfg state dts).position.x ≤ cfg.worldWidth - cfg.ballRadius ∧
    cfg.ballRadius ≤ (iterateSteps cfg state dts).position.y ∧
    (iterateSteps cfg state dts).position.y ≤ cfg.worldHeight - cfg.ballRadius := by
  induction dts generalizing state with
  | nil => exact ⟨hx1, hx2, hy1, hy2⟩
  | cons dt rest ih =>
    rw [iterateSteps]
    obtain ⟨hdt, hfr⟩ := hdts dt (List.mem_cons_self _ _)
    obtain ⟨a, b, c, d⟩ :=
      stepBall_noBumpers_inBounds state dt cfg hfr hM hdt.le hx1 hx2 hy1 hy2
    exact ih _ (fun t ht => hdts t (List.mem_cons_of_mem _ ht)) a b c d

/-- C3 (witness): the amended containment theorem applied to two 1/60-second
steps from `(180, 320)` with velocity `(50, -30)` under the game settings. -/
theorem iterateSteps_wall_containment_w :
    stdSettings.ballRadius ≤
      (iterateSteps stdSettings ⟨⟨180, 320⟩, ⟨50, -30⟩⟩ [1 / 60, 1 / 60]).position.x ∧
    (iterateSteps stdSettings ⟨⟨180, 320⟩, ⟨50, -30⟩⟩ [1 / 60, 1 / 60]).position.x ≤
      stdSettings.worldWidth - stdSettings.ballRadius ∧
    stdSettings.ballRadius ≤
      (iterateSteps stdSettings ⟨⟨180, 320⟩, ⟨50, -30⟩⟩ [1 / 60, 1 / 60]).position.y ∧
    (iterateSteps stdSettings ⟨⟨180, 320⟩, ⟨50, -30⟩⟩ [1 / 60, 1 / 60]).position.y ≤
      stdSettings.worldHeight - stdSettings.ballRadius :=
  iterateSteps_wall_containment stdSettings ⟨⟨180, 320⟩, ⟨50, -30⟩⟩ [1 / 60, 1 / 60]
    (by norm_num [stdSettings])
    (by
      intro t ht
      simp only [List.mem_cons, List.not_mem_nil, or_false] at ht
      rcases ht with rfl | rfl <;> norm_num [stdSettings])
    (by norm_num [stdSettings]) (by norm_num [stdSettings])
    (by norm_num [stdSettings]) (by norm_num [stdSettings])

/-! ### C4: speed cap -/

/-- C4: for every input state, obstacle list, `dt ≥ 0` and settings with
`0 < damping ≤ 1` and `maxSpeed > 0`, the velocity returned by `stepBall` has
magnitude at most `maxSpeed`: the cap rescales to exactly `maxSpeed`, wall
reflection multiplies one component by `damping ≤ 1`, and every bumper
response reflects about a unit normal (preserving speed) and scales by
`damping`. -/
theorem stepBall_speed_le_maxSpeed (state : BallState) (bumpers : List ResolvedBumper)
    (dt : ℝ) (settings : StepSettings) (hd0 : 0 < settings.damping)
    (hd1 : settings.damping ≤ 1) (hM : 0 < settings.maxSpeed) (hdt : 0 ≤ dt) :
    length (stepBall state bumpers dt settings).1.velocity ≤ settings.maxSpeed := by
  unfold stepBall
  dsimp only
  apply foldl_bumpers_speed_le _ _ _ _ hd0.le hd1
  unfold resolveWallCollisions
  dsimp only
  refine le_trans (resolveWallY_speed_le _ _ _ hd0.le hd1) ?_
  refine le_trans (resolveWallX_speed_le _ _ _ hd0.le hd1) ?_
  rw [apply_ite BallState.velocity]
  dsimp only
  exact capped_length_le _ _ hM

/-- C4 (witness): the speed-cap theorem at a concrete fast ball under the
game settings. -/
theorem stepBall_speed_le_maxSpeed_w :
    length (stepBall ⟨⟨180, 320⟩, ⟨5000, 0⟩⟩ [] (1 / 60) stdSettings).1.velocity ≤
      stdSettings.maxSpeed :=
  stepBall_speed_le_maxSpeed ⟨⟨180, 320⟩, ⟨5000, 0⟩⟩ [] (1 / 60) stdSettings
    (by norm_num [stdSettings]) (by norm_num [stdSettings])
    (by norm_num [stdSettings]) (by norm_num)

/-! ### C5: energy non-increase along the collision normal -/

/-- C5: for the bumper response `damping * (v - 2(v.n)n)` with a unit normal
the speed along the normal is exactly `damping` times the incoming speed
along it (hence at most it, as `damping ≤ 1`), and each wall branch either
leaves the x (resp. y) velocity component untouched or maps its magnitude to
exactly `damping` times the incoming magnitude — a single bounce never gains
energy along the collision normal. -/
theorem bounce_energy_nonincrease (v n : Vec2) (d : ℝ) (s : BallState)
    (cfg : StepSettings) (acc : CollisionAccumulator)
    (hd0 : 0 ≤ d) (hd1 : d ≤ 1) (hn : dot n n = 1) (hdmp : cfg.damping = d) :
    |dot (scale (reflectVelocity v n) d) n| = d * |dot v n| ∧
    (|(resolveWallX s cfg acc).1.velocity.x| = d * |s.velocity.x| ∨
      (resolveWallX s cfg acc).1.velocity.x = s.velocity.x) ∧
    (|(resolveWallY s cfg acc).1.velocity.y| = d * |s.velocity.y| ∨
      (resolveWallY s cfg acc).1.velocity.y = s.velocity.y) := by
  subst hdmp
  have hn' : n.x * n.x + n.y * n.y = 1 := hn
  refine ⟨?_, ?_, ?_⟩
  · have h1 : dot (scale (reflectVelocity v n) cfg.damping) n =
        cfg.damping * (-(dot v n)) := by
      simp only [dot_def, scale_x, scale_y, reflectVelocity, sub_x, sub_y]
      linear_combination (-2 * cfg.damping * (v.x * n.x + v.y * n.y)) * hn'
    rw [h1, abs_mul, abs_neg, abs_of_nonneg hd0]
  · unfold resolveWallX
    split_ifs with h1 h2
    · left
      dsimp only
      rw [abs_mul, abs_abs, abs_of_nonneg hd0]
      ring
    · left
      dsimp only
      rw [show -|s.velocity.x| * cfg.damping = -(|s.velocity.x| * cfg.damping) by ring,
        abs_neg, abs_mul, abs_abs, abs_of_nonneg hd0]
      ring
    · right
      rfl
  · unfold resolveWallY
    split_ifs with h1 h2
    · left
      dsimp only
      rw [abs_mul, abs_abs, abs_of_nonneg hd0]
      ring
    · left
      dsimp only
      rw [show -|s.velocity.y| * cfg.damping = -(|s.velocity.y| * cfg.damping) by ring,
        abs_neg, abs_mul, abs_abs, abs_of_nonneg hd0]
      ring
    · right
      rfl

/-- C5 (witness): the bounce response along the unit normal `(1, 0)` for the
velocity `(3, 4)` under the game's damping. -/
theorem bounce_energy_nonincrease_w :
    |dot (scale (reflectVelocity ⟨3, 4⟩ ⟨1, 0⟩) 0.88) ⟨1, 0⟩| =
        0.88 * |dot (⟨3, 4⟩ : Vec2) ⟨1, 0⟩| ∧
    (|(resolveWallX ⟨⟨180, 320⟩, ⟨3, 4⟩⟩ stdSettings ⟨[], []⟩).1.velocity.x| =
        0.88 * |(⟨3, 4⟩ : Vec2).x| ∨
      (resolveWallX ⟨⟨180, 320⟩, ⟨3, 4⟩⟩ stdSettings ⟨[], []⟩).1.velocity.x =
        (⟨3, 4⟩ : Vec2).x) ∧
    (|(resolveWallY ⟨⟨180, 320⟩, ⟨3, 4⟩⟩ stdSettings ⟨[], []⟩).1.velocity.y| =
        0.88 * |(⟨3, 4⟩ : Vec2).y| ∨
      (resolveWallY ⟨⟨180, 320⟩, ⟨3, 4⟩⟩ stdSettings ⟨[], []⟩).1.velocity.y =
        (⟨3, 4⟩ : Vec2).y) :=
  bounce_energy_nonincrease ⟨3, 4⟩ ⟨1, 0⟩ 0.88 ⟨⟨180, 320⟩, ⟨3, 4⟩⟩ stdSettings
    ⟨[], []⟩ (by norm_num) (by norm_num) (by norm_num [dot_def]) (by norm_num [stdSettings])

/-! ### C6: friction multiplier is not floor-clamped -/

/-- C6: the friction update in `stepBall` multiplies the velocity by exactly
`1 - friction * dt` with no `max(0, _)` floor: when `friction * dt > 1` (and
the step neither caps the speed nor touches a wall, isolating the friction
update in the returned state) the returned velocity equals
`velocity * (1 - friction * dt)` and every nonzero component's sign is
inverted. -/
theorem stepBall_friction_no_clamp (state : BallState) (dt : ℝ) (cfg : StepSettings)
    (hf : 1 < cfg.friction * dt)
    (hcap : ¬ length (scale state.velocity (1 - cfg.friction * dt)) > cfg.maxSpeed)
    (hx1 : cfg.ballRadius ≤ (add state.position (scale state.velocity dt)).x)
    (hx2 : (add state.position (scale state.velocity dt)).x + cfg.ballRadius ≤
      cfg.worldWidth)
    (hy1 : cfg.ballRadius ≤ (add state.position (scale state.velocity dt)).y)
    (hy2 : (add state.position (scale state.velocity dt)).y + cfg.ballRadius ≤
      cfg.worldHeight) :
    (stepBall state [] dt cfg).1.velocity = scale state.velocity (1 - cfg.friction * dt) ∧
    (0 < state.velocity.x → (stepBall state [] dt cfg).1.velocity.x < 0) ∧
    (state.velocity.x < 0 → 0 < (stepBall state [] dt cfg).1.velocity.x) ∧
    (0 < state.velocity.y → (stepBall state [] dt cfg).1.velocity.y < 0) ∧
    (state.velocity.y < 0 → 0 < (stepBall state [] dt cfg).1.velocity.y) := by
  have hneg : 1 - cfg.friction * dt < 0 := by linarith
  have hx : resolveWallX
      ⟨add state.position (scale state.velocity dt),
       scale state.velocity (1 - cfg.friction * dt)⟩ cfg ⟨[], []⟩ =
      (⟨add state.position (scale state.velocity dt),
        scale state.velocity (1 - cfg.friction * dt)⟩, ⟨[], []⟩) := by
    unfold resolveWallX
    dsimp only
    rw [if_neg (by rintro ⟨h1, -⟩; linarith), if_neg (by rintro ⟨h1, -⟩; linarith)]
  have hy : resolveWallY
      ⟨add state.position (scale state.velocity dt),
       scale state.velocity (1 - cfg.friction * dt)⟩ cfg ⟨[], []⟩ =
      (⟨add state.position (scale state.velocity dt),
        scale state.velocity (1 - cfg.friction * dt)⟩, ⟨[], []⟩) := by
    unfold resolveWallY
    dsimp only
    rw [if_neg (by rintro ⟨h1, -⟩; linarith), if_neg (by rintro ⟨h1, -⟩; linarith)]
  have key : (stepBall state [] dt cfg).1 =
      ⟨add state.position (scale state.velocity dt),
       scale state.velocity (1 - cfg.friction * dt)⟩ := by
    rw [stepBall_noBumpers_state, if_neg hcap]
    unfold resolveWallCollisions
    dsimp only
    rw [hx]
    dsimp only
    rw [hy]
  rw [key]
  refine ⟨rfl, ?_, ?_, ?_, ?_⟩ <;> dsimp only [scale_x, scale_y] <;> intro h
  · exact mul_neg_of_pos_of_neg h hneg
  · exact mul_pos_of_neg_of_neg h hneg
  · exact mul_neg_of_pos_of_neg h hneg
  · exact mul_pos_of_neg_of_neg h hneg

/-- C6 (witness): friction 2 over a full second inverts the velocity `(3, 4)`
to `(-3, -4)` in a cap-free, wall-free step. -/
theorem stepBall_friction_no_clamp_w :
    (stepBall ⟨⟨180, 320⟩, ⟨3, 4⟩⟩ [] 1 ⟨14, 360, 640, 0.88, 2, 100⟩).1.velocity =
      scale ⟨3, 4⟩ (1 - 2 * 1) ∧
    (0 < (⟨3, 4⟩ : Vec2).x →
      (stepBall ⟨⟨180, 320⟩, ⟨3, 4⟩⟩ [] 1 ⟨14, 360, 640, 0.88, 2, 100⟩).1.velocity.x < 0) ∧
    ((⟨3, 4⟩ : Vec2).x < 0 →
      0 < (stepBall ⟨⟨180, 320⟩, ⟨3, 4⟩⟩ [] 1 ⟨14, 360, 640, 0.88, 2, 100⟩).1.velocity.x) ∧
    (0 < (⟨3, 4⟩ : Vec2).y →
      (stepBall ⟨⟨180, 320⟩, ⟨3, 4⟩⟩ [] 1 ⟨14, 360, 640, 0.88, 2, 100⟩).1.velocity.y < 0) ∧
    ((⟨3, 4⟩ : Vec2).y < 0 →
      0 < (stepBall ⟨⟨180, 320⟩, ⟨3, 4⟩⟩ [] 1 ⟨14, 360, 640, 0.88, 2, 100⟩).1.velocity.y) :=
  stepBall_friction_no_clamp ⟨⟨180, 320⟩, ⟨3, 4⟩⟩ 1 ⟨14, 360, 640, 0.88, 2, 100⟩
    (by norm_num)
    (by
      have hv : scale (⟨3, 4⟩ : Vec2) (1 - (2 : ℝ) * 1) = ⟨-3, -4⟩ := by
        simp only [scale, Vec2.mk.injEq]
        norm_num
      have hlen : length (⟨-3, -4⟩ : Vec2) = 5 := by
        unfold length
        rw [show (-3 : ℝ) * (-3) + (-4) * (-4) = 5 ^ 2 by norm_num,
          Real.sqrt_sq (by norm_num)]
      dsimp only
      rw [hv, hlen]
      norm_num)
    (by simp only [add_x, scale_x]; norm_num)
    (by simp only [add_x, scale_x]; norm_num)
    (by simp only [add_y, scale_y]; norm_num)
    (by simp only [add_y, scale_y]; norm_num)

/-! ### C7: resolved geometry -/

/-- C7: for every obstacle and time, the resolved vertices are the local
vertices rotated about the local origin by the static rotation (degrees to
radians; the rotation-0 fast path coincides with rotating by 0) translated by
the resolved center; the center is the base position offset along the motion
axis by `amplitude * sin(time * speed + phase)` with `phase` defaulting to 0
and absent motion leaving the anchor unchanged; and an `up` triangle has
local vertices `(0, -h/2)`, `(w/2, h/2)`, `(-w/2, h/2)`. -/
theorem resolveBumper_geometry (b : Bumper) (t : ℝ) :
    (resolveBumper b t).vertices =
      (baseVertices b).map
        (fun p => add (rotatePoint p (toRadians (b.rotation.getD 0)))
          (resolveBumper b t).center) ∧
    (resolveBumper b t).center =
      (match b.motion with
       | none => b.position
       | some m =>
         match m.axis with
         | Axis.x =>
           ⟨b.position.x + m.amplitude * Real.sin (t * m.speed + m.phase.getD 0),
            b.position.y⟩
         | Axis.y =>
           ⟨b.position.x,
            b.position.y + m.amplitude * Real.sin (t * m.speed + m.phase.getD 0)⟩) ∧
    (∀ o, b.type = BumperShape.triangle o → o = TriangleOrientation.up →
      baseVertices b =
        [⟨0, -(b.height / 2)⟩, ⟨b.width / 2, b.height / 2⟩,
         ⟨-(b.width / 2), b.height / 2⟩]) := by
  have hc : (resolveBumper b t).center = applyMotion b.position b t := rfl
  refine ⟨?_, ?_, ?_⟩
  · rw [hc]
    show (resolveBumper b t).vertices = _
    unfold resolveBumper
    dsimp only
    by_cases hrot : b.rotation.getD 0 = 0
    · rw [if_pos hrot]
      have hfun : (fun p => add (rotatePoint p (toRadians (b.rotation.getD 0)))
          (applyMotion b.position b t)) =
          fun p => add p (applyMotion b.position b t) := by
        funext p
        rw [hrot]
        congr 1
        have h0 : toRadians 0 = 0 := by
          unfold toRadians
          ring
        rw [h0]
        unfold rotatePoint
        rw [Real.cos_zero, Real.sin_zero]
        cases p
        simp
      rw [hfun]
    · rw [if_neg hrot, List.map_map]
      rfl
  · rw [hc]
    unfold applyMotion
    cases hm : b.motion with
    | none => rfl
    | some m =>
      cases m.axis <;> rfl
  · intro o hty ho
    subst ho
    simp only [baseVertices, hty]
    rfl

/-- C7 (witness): the `up`-triangle local vertices of a concrete 40x40
triangle obstacle. -/
theorem resolveBumper_geometry_w :
    baseVertices
        { id := "b1", color := "#F4A261", position := ⟨100, 100⟩, width := 40,
          height := 40, rotation := none,
          motion := some { axis := Axis.x, amplitude := 5, speed := 2, phase := none },
          type := BumperShape.triangle TriangleOrientation.up } =
      [⟨0, -(40 / 2)⟩, ⟨40 / 2, 40 / 2⟩, ⟨-(40 / 2), 40 / 2⟩] :=
  (resolveBumper_geometry
    { id := "b1", color := "#F4A261", position := ⟨100, 100⟩, width := 40,
      height := 40, rotation := none,
      motion := some { axis := Axis.x, amplitude := 5, speed := 2, phase := none },
      type := BumperShape.triangle TriangleOrientation.up } 0).2.2 TriangleOrientation.up rfl rfl

/-! ### C8: event de-duplication -/

/-- Accumulator invariant: recorded events have pairwise-distinct ids and
every recorded id is in the seen-id set. -/
def AccWf (acc : CollisionAccumulator) : Prop :=
  (acc.events.map CollisionEvent.id).Nodup ∧ ∀ e ∈ acc.events, e.id ∈ acc.ids

theorem accWf_empty : AccWf ⟨[], []⟩ := by
  constructor
  · simp
  · intro e he
    simp at he

theorem appendCollision_wf (acc : CollisionAccumulator) (e : CollisionEvent)
    (h : AccWf acc) : AccWf (appendCollision acc e) := by
  obtain ⟨h1, h2⟩ := h
  unfold appendCollision
  split_ifs with hmem
  · exact ⟨h1, h2⟩
  · constructor
    · rw [List.map_append, List.nodup_append]
      refine ⟨h1, by simp, ?_⟩
      intro x hx hx'
      simp only [List.map_cons, List.map_nil, List.mem_singleton] at hx'
      obtain ⟨ev, hev, rfl⟩ := List.mem_map.mp hx
      exact hmem (hx' ▸ h2 ev hev)
    · intro ev hev
      rw [List.mem_append] at hev
      rcases hev with hev | hev
      · exact List.mem_append_left _ (h2 ev hev)
      · simp only [List.mem_singleton] at hev
        subst hev
        exact List.mem_append_right _ (by simp)

theorem resolveWallX_wf (s : BallState) (cfg : StepSettings)
    (acc : CollisionAccumulator) (h : AccWf acc) :
    AccWf (resolveWallX s cfg acc).2 := by
  unfold resolveWallX
  split_ifs <;> first
    | exact appendCollision_wf _ _ h
    | exact h

theorem resolveWallY_wf (s : BallState) (cfg : StepSettings)
    (acc : CollisionAccumulator) (h : AccWf acc) :
    AccWf (resolveWallY s cfg acc).2 := by
  unfold resolveWallY
  split_ifs <;> first
    | exact appendCollision_wf _ _ h
    | exact h

theorem resolveBumperCollision_wf (b : ResolvedBumper) (s : BallState)
    (acc : CollisionAccumulator) (cfg : StepSettings) (h : AccWf acc) :
    AccWf (resolveBumperCollision b s acc cfg).2 := by
  unfold resolveBumperCollision
  cases he : resolveBumperEdges b.id (buildEdges b.vertices) s cfg with
  | some res =>
    simp only [he]
    exact appendCollision_wf _ _ h
  | none =>
    simp only [he]
    cases hcor : resolveBumperCorners b.id b.vertices s cfg with
    | some res =>
      simp only [hcor]
      exact appendCollision_wf _ _ h
    | none =>
      simp only [hcor]
      exact h

theorem foldl_bumpers_wf (bumpers : List ResolvedBumper)
    (p : BallState × CollisionAccumulator) (cfg : StepSettings)
    (h : AccWf p.2) :
    AccWf ((bumpers.foldl
      (fun acc bumper => resolveBumperCollision bumper acc.1 acc.2 cfg) p).2) := by
  induction bumpers generalizing p with
  | nil => exact h
  | cons b rest ih =>
    rw [List.foldl_cons]
    exact ih _ (resolveBumperCollision_wf b p.1 p.2 cfg h)

/-- C8: within one `stepBall` call the returned collision list contains at
most one event per distinct id — the recorded ids are pairwise distinct, so
each obstacle id and each of the four wall ids appears at most once. -/
theorem stepBall_events_nodup (state : BallState) (bumpers : List ResolvedBumper)
    (dt : ℝ) (settings : StepSettings) :
    ((stepBall state bumpers dt settings).2.map CollisionEvent.id).Nodup := by
  unfold stepBall
  dsimp only
  apply And.left
  apply foldl_bumpers_wf
  unfold resolveWallCollisions
  dsimp only
  apply resolveWallY_wf
  apply resolveWallX_wf
  exact accWf_empty

/-! ### C9: degenerate geometry is safe -/

/-- C9: obstacle collision resolution is total and division-safe: the
segment-projection result is always a clamped point of the segment (the
denominator being floored at `1/10000 > 0`), a zero-length edge projects to
its endpoint, an edge whose closest point coincides with the ball center is
skipped by the edge loop, and a vertex coinciding with the ball center is
skipped by the corner loop — no undefined normal is ever constructed. -/
theorem collision_degenerate_safe (point : Vec2) (e : Edge) (bumperId : String)
    (state : BallState) (cfg : StepSettings) (rest : List Edge) (v : Vec2)
    (vs : List Vec2) :
    (∃ t, 0 ≤ t ∧ t ≤ 1 ∧
      closestPointOnSegment point e = add e.efrom (scale (sub e.eto e.efrom) t)) ∧
    (e.eto = e.efrom → closestPointOnSegment point e = e.efrom) ∧
    (length (sub state.position (closestPointOnSegment state.position e)) = 0 →
      resolveBumperEdges bumperId (e :: rest) state cfg =
        resolveBumperEdges bumperId rest state cfg) ∧
    (state.position = v →
      resolveBumperCorners bumperId (v :: vs) state cfg =
        resolveBumperCorners bumperId vs state cfg) := by
  refine ⟨?_, ?_, ?_, ?_⟩
  · refine ⟨clamp (dot (sub point e.efrom) (sub e.eto e.efrom) /
        max (dot (sub e.eto e.efrom) (sub e.eto e.efrom)) (1 / 10000)) 0 1,
      ?_, ?_, rfl⟩
    · exact le_max_left 0 _
    · exact max_le zero_le_one (min_le_left _ _)
  · intro h
    have hs : sub e.eto e.efrom = ⟨0, 0⟩ := by
      rw [h]
      unfold sub
      simp
    unfold closestPointOnSegment
    dsimp only
    rw [hs]
    apply vec2Ext <;> simp [add, scale]
  · intro h
    simp only [resolveBumperEdges]
    rw [if_pos h]
  · intro h
    subst h
    have hd : dot state.velocity (sub state.position state.position) = 0 := by
      simp [dot_def, sub]
    simp only [resolveBumperCorners]
    rw [if_neg ?hc]
    case hc =>
      rintro ⟨-, hlt⟩
      rw [hd] at hlt
      exact lt_irrefl 0 hlt

/-- C9 (witness): a vertex exactly at the ball center is skipped by the
corner loop at a concrete input. -/
theorem collision_degenerate_safe_w :
    resolveBumperCorners "b1" [⟨5, 5⟩] ⟨⟨5, 5⟩, ⟨1, 0⟩⟩ stdSettings =
      resolveBumperCorners "b1" [] ⟨⟨5, 5⟩, ⟨1, 0⟩⟩ stdSettings :=
  (collision_degenerate_safe ⟨0, 0⟩ ⟨⟨0, 0⟩, ⟨1, 1⟩, ⟨0, 0⟩⟩ "b1"
    ⟨⟨5, 5⟩, ⟨1, 0⟩⟩ stdSettings [] ⟨5, 5⟩ []).2.2.2 rfl

end BounceShot
